import Mathlib

/-!
Shallow embedding of `src/drone_firmware/main.py` (class `DroneLightShow`)
and verification of the specification's claims about it.

Conventions of the embedding:
* Python floats are modelled as rationals (`ℚ`); Python's `int()` truncation
  toward zero is modelled by `pyInt`.
* The MAVLink transport is modelled as a command sink that records the
  outbound messages; each `*_send` call appends one message.
* `time.time()` / `time.sleep` are modelled by explicitly threading a clock
  value of type `ℚ` through the LED-controller loop.  The time consumed by
  one dispatch (the three servo sends plus loop overhead) is an oracle
  `dur : ℕ → ℚ`; `time.sleep t` advances the clock by exactly `t`.
* An exception raised by a sink call is modelled by an outcome oracle
  `outcome : ℕ → SinkOutcome`; the Python loop has no `try`/`except`, so any
  non-`ok` outcome aborts the remaining iterations.
-/

/-- Python `int()` applied to a rational: truncation toward zero. -/
def pyInt (q : ℚ) : ℤ := if 0 ≤ q then ⌊q⌋ else ⌈q⌉

/-- An RGB triple as read from the show file (`light_cmd['color']['rgb']`). -/
structure RGB where
  r : ℕ
  g : ℕ
  b : ℕ
deriving DecidableEq, Repr

/-- One entry of `mission['lightingSequence']`:
`light_cmd['timestamp']` (ms), `light_cmd['color']['rgb']`,
`light_cmd['color']['brightness']`. -/
structure ColorEvent where
  timestamp : ℕ
  rgb : RGB
  brightness : ℚ
deriving DecidableEq, Repr

/-- One `MAV_CMD_DO_SET_SERVO` command: servo channel and PWM value in μs. -/
structure ServoCmd where
  channel : ℕ
  pwm : ℤ
deriving DecidableEq, Repr

/-- `red_pwm = int(rgb['r'] * brightness)` in `control_rgb_leds`. -/
def pwmOf (c : ℕ) (brightness : ℚ) : ℤ := pyInt ((c : ℚ) * brightness)

/-- `pwm * 4 + 1000`: the PWM-microsecond control value sent for one channel. -/
def controlValue (c : ℕ) (brightness : ℚ) : ℤ := pwmOf c brightness * 4 + 1000

/-- `control_rgb_leds(rgb, brightness)`: the three servo commands it sends,
in source order — red on servo 9 (AUX1), green on servo 10 (AUX2),
blue on servo 11 (AUX3). -/
def control_rgb_leds (rgb : RGB) (brightness : ℚ) : List ServoCmd :=
  [⟨9, controlValue rgb.r brightness⟩,
   ⟨10, controlValue rgb.g brightness⟩,
   ⟨11, controlValue rgb.b brightness⟩]

/- ### Basic facts about the mapping -/

theorem pyInt_of_nonneg {q : ℚ} (h : 0 ≤ q) : pyInt q = ⌊q⌋ := by
  simp [pyInt, h]

theorem pwmOf_eq_floor (c : ℕ) {b : ℚ} (hb : 0 ≤ b) :
    pwmOf c b = ⌊(c : ℚ) * b⌋ := by
  have : (0 : ℚ) ≤ (c : ℚ) * b := mul_nonneg (by positivity) hb
  simp [pwmOf, pyInt, this]

theorem pwmOf_nonneg (c : ℕ) {b : ℚ} (hb : 0 ≤ b) : 0 ≤ pwmOf c b := by
  rw [pwmOf_eq_floor c hb]
  exact Int.floor_nonneg.mpr (mul_nonneg (by positivity) hb)

theorem pwmOf_le (c : ℕ) {b : ℚ} (hb0 : 0 ≤ b) (hb1 : b ≤ 1) (hc : c ≤ 255) :
    pwmOf c b ≤ 255 := by
  rw [pwmOf_eq_floor c hb0]
  have h1 : (c : ℚ) * b ≤ (c : ℚ) * 1 := by
    exact mul_le_mul_of_nonneg_left hb1 (by positivity)
  have h2 : (c : ℚ) * 1 ≤ 255 := by
    rw [mul_one]
    exact_mod_cast hc
  have : (c : ℚ) * b ≤ (255 : ℚ) := le_trans h1 h2
  calc ⌊(c : ℚ) * b⌋ ≤ ⌊(255 : ℚ)⌋ := Int.floor_le_floor this
    _ = 255 := by norm_num

/-- **C1.** For every channel value `c ∈ [0,255]` and brightness `b ∈ [0,1]`,
the scaled level is `⌊c·b⌋` and the control value `⌊c·b⌋·4 + 1000` lies in
`[1000, 2020]`; moreover `controlValue 0 b = 1000` for every such `b`, and
`controlValue 255 1 = 2020`. -/
theorem C1_control_value_bounds (c : ℕ) (b : ℚ)
    (hc : c ≤ 255) (hb0 : 0 ≤ b) (hb1 : b ≤ 1) :
    pwmOf c b = ⌊(c : ℚ) * b⌋ ∧
    0 ≤ pwmOf c b ∧ pwmOf c b ≤ 255 ∧
    controlValue c b = ⌊(c : ℚ) * b⌋ * 4 + 1000 ∧
    1000 ≤ controlValue c b ∧ controlValue c b ≤ 2020 ∧
    controlValue 0 b = 1000 ∧
    controlValue 255 1 = 2020 := by
  have hfl := pwmOf_eq_floor c hb0
  have h0 := pwmOf_nonneg c hb0
  have h255 := pwmOf_le c hb0 hb1 hc
  refine ⟨hfl, h0, h255, by rw [controlValue, hfl], by unfold controlValue; omega,
    by unfold controlValue; omega, ?_, ?_⟩
  · have : pwmOf 0 b = 0 := by
      rw [pwmOf_eq_floor 0 hb0]
      norm_num
    simp [controlValue, this]
  · have : pwmOf 255 (1 : ℚ) = 255 := by
      rw [pwmOf_eq_floor 255 zero_le_one]
      norm_num
    simp [controlValue, this]

/-- Witness for C1 at `c = 200`, `b = 1/2`. -/
theorem C1_witness :
    (200 : ℕ) ≤ 255 ∧ (0 : ℚ) ≤ 1/2 ∧ (1/2 : ℚ) ≤ 1 ∧
    (1000 ≤ controlValue 200 (1/2) ∧ controlValue 200 (1/2) ≤ 2020) :=
  ⟨by norm_num, by norm_num, by norm_num,
    ⟨(C1_control_value_bounds 200 (1/2) (by norm_num) (by norm_num)
        (by norm_num)).2.2.2.2.1,
     (C1_control_value_bounds 200 (1/2) (by norm_num) (by norm_num)
        (by norm_num)).2.2.2.2.2.1⟩⟩

/- ### The LED controller loop (`led_controller_thread`) -/

/-- Outcome of the command-sink calls made for one event: the Python code has
no `try`/`except`, so both failure kinds abort the loop identically. -/
inductive SinkOutcome
  | ok
  | transientErr
  | fatalErr
deriving DecidableEq, Repr

/-- What one iteration of the `for light_cmd in lighting_sequence` loop did:
the event, its `target_time`, the `current_time` read, the time slept, the
wall-clock instant of the dispatch, the servo commands sent, and the sink
outcome for this event. -/
structure DispatchRec where
  event : ColorEvent
  target : ℚ
  current : ℚ
  wait : ℚ
  dispatchTime : ℚ
  cmds : List ServoCmd
  outcome : SinkOutcome
deriving DecidableEq, Repr

/-- The loop body of `led_controller_thread`, iterated over the remaining
events.  `start` is the `start_time` captured before the loop, `dur k` is the
time consumed by dispatch `k` (the three sends plus loop overhead),
`outcome k` is the sink outcome for event `k`, `k` is the index of the next
event and `clock` the wall-clock time at its `time.time()` read.  A non-`ok`
outcome is an uncaught exception: the loop aborts after that iteration. -/
def runWith (start : ℚ) (dur : ℕ → ℚ) (outcome : ℕ → SinkOutcome) :
    ℕ → ℚ → List ColorEvent → List DispatchRec
  | _, _, [] => []
  | k, clock, e :: rest =>
    let target : ℚ := start + (e.timestamp : ℚ) / 1000
    let wait : ℚ := if clock < target then target - clock else 0
    let tdisp : ℚ := clock + wait
    let r : DispatchRec :=
      ⟨e, target, clock, wait, tdisp,
        control_rgb_leds e.rgb e.brightness, outcome k⟩
    match outcome k with
    | .ok => r :: runWith start dur outcome (k + 1) (tdisp + dur k) rest
    | .transientErr => [r]
    | .fatalErr => [r]

/-- A sink that never fails. -/
def allOk : ℕ → SinkOutcome := fun _ => .ok

/-- A dispatch-duration oracle for concrete runs: every dispatch is instant. -/
def zeroDur : ℕ → ℚ := fun _ => 0

/-- A dispatch-duration oracle for concrete runs: every dispatch takes 1s. -/
def oneDur : ℕ → ℚ := fun _ => 1

/-- `led_controller_thread(lighting_sequence)` under a failure-free sink:
`start_time = time.time()` is captured once, then each event is waited for
(if its target is still in the future) and dispatched. -/
def led_controller_thread (start : ℚ) (dur : ℕ → ℚ)
    (seq : List ColorEvent) : List DispatchRec :=
  runWith start dur allOk 0 start seq

theorem runWith_nil (start : ℚ) (dur : ℕ → ℚ) (outcome : ℕ → SinkOutcome)
    (k : ℕ) (clock : ℚ) : runWith start dur outcome k clock [] = [] := rfl

/-- Under a failure-free sink the loop dispatches every event in input order:
the trace's events are exactly the input list. -/
theorem runWith_allOk_events (start : ℚ) (dur : ℕ → ℚ) :
    ∀ (seq : List ColorEvent) (k : ℕ) (clock : ℚ),
      (runWith start dur allOk k clock seq).map (fun r => r.event) = seq := by
  intro seq
  induction seq with
  | nil => intro k clock; rfl
  | cons e rest ih =>
      intro k clock
      simp only [runWith, allOk, List.map_cons, ih]

/-- Every record in a `runWith` trace satisfies the per-iteration
relationships fixed by the loop body. -/
theorem runWith_mem_fields (start : ℚ) (dur : ℕ → ℚ)
    (outcome : ℕ → SinkOutcome) :
    ∀ (seq : List ColorEvent) (k : ℕ) (clock : ℚ) (r : DispatchRec),
      r ∈ runWith start dur outcome k clock seq →
      r.target = start + (r.event.timestamp : ℚ) / 1000 ∧
      r.wait = (if r.current < r.target then r.target - r.current else 0) ∧
      r.dispatchTime = r.current + r.wait ∧
      r.cmds = control_rgb_leds r.event.rgb r.event.brightness := by
  intro seq
  induction seq with
  | nil => intro k clock r h; simp [runWith] at h
  | cons e rest ih =>
      intro k clock r h
      rw [runWith] at h
      rcases ho : outcome k with _ | _ | _ <;> rw [ho] at h
      · rcases List.mem_cons.mp h with h1 | h2
        · subst h1; exact ⟨rfl, rfl, rfl, rfl⟩
        · exact ih _ _ r h2
      · rcases List.mem_singleton.mp h with h1
        subst h1; exact ⟨rfl, rfl, rfl, rfl⟩
      · rcases List.mem_singleton.mp h with h1
        subst h1; exact ⟨rfl, rfl, rfl, rfl⟩

/- ### Concrete inputs for counterexamples and witnesses -/

/-- Pure red, as in the spec's end-to-end scenario. -/
def redRGB : RGB := ⟨255, 0, 0⟩

/-- Event at offset 500 ms. -/
def evA : ColorEvent := ⟨500, redRGB, 1⟩

/-- Event at offset 0 ms. -/
def evB : ColorEvent := ⟨0, redRGB, 1⟩

/-- A timeline that arrives unsorted: the 500 ms event precedes the 0 ms one. -/
def unsortedSeq : List ColorEvent := [evA, evB]

/-- The same two events sorted by timestamp. -/
def sortedSeq : List ColorEvent := [evB, evA]

/-- The timestamps of a trace, in dispatch order. -/
def timestampsOf (tr : List DispatchRec) : List ℕ :=
  tr.map fun r => r.event.timestamp

/- ### C2 — dispatch order -/

/-- **C2 counterexample.** The loop iterates in input order and never sorts:
on the unsorted timeline `[500 ms, 0 ms]` the actuation calls happen with
timestamps `[500, 0]`, which is not ascending — refuting the claim that the
dispatch sequence is in ascending `timestamp_offset_ms` order for every
input timeline. -/
theorem C2_counterexample :
    timestampsOf (led_controller_thread 0 zeroDur unsortedSeq) = [500, 0] ∧
    ¬ List.Sorted (· ≤ ·)
        (timestampsOf (led_controller_thread 0 zeroDur unsortedSeq)) := by
  constructor
  · decide
  · decide

/-- **C2 amended.** The scheduler dispatches in *input* order; hence for a
timeline already sorted by `timestamp_offset_ms` the actuation calls occur in
the same relative order as the input entries and in ascending timestamp
order.  (The unconditional "ascending for any input order" part of the claim
is false: the loop never sorts.) -/
theorem C2_order_preservation (start : ℚ) (dur : ℕ → ℚ)
    (seq : List ColorEvent)
    (hs : List.Sorted (· ≤ ·) (seq.map fun e => e.timestamp)) :
    (led_controller_thread start dur seq).map (fun r => r.event) = seq ∧
    List.Sorted (· ≤ ·)
      (timestampsOf (led_controller_thread start dur seq)) := by
  have hev : (led_controller_thread start dur seq).map (fun r => r.event)
      = seq := runWith_allOk_events start dur seq 0 start
  refine ⟨hev, ?_⟩
  have hts : timestampsOf (led_controller_thread start dur seq)
      = seq.map fun e => e.timestamp := by
    unfold timestampsOf
    rw [show (fun r : DispatchRec => r.event.timestamp)
        = (fun e : ColorEvent => e.timestamp) ∘ (fun r : DispatchRec => r.event)
      from rfl]
    rw [← List.map_map, hev]
  rw [hts]
  exact hs

/-- Witness for C2 (amended) on the sorted timeline `[0 ms, 500 ms]`. -/
theorem C2_order_preservation_witness :
    (led_controller_thread 0 zeroDur sortedSeq).map (fun r => r.event)
        = sortedSeq ∧
    List.Sorted (· ≤ ·)
      (timestampsOf (led_controller_thread 0 zeroDur sortedSeq)) :=
  C2_order_preservation 0 zeroDur sortedSeq (by decide)

/- ### C3 — wait-or-skip policy -/

/-- **C3.** For every dispatched event: if its target time is not in the
future (`target ≤ current`) the loop sleeps for zero time and dispatches at
the current instant (no catch-up, no replay of skipped time); if the target
is in the future the sleep is exactly `target − current`; and in both cases
the event's servo commands are sent. -/
theorem C3_no_suspension_when_late (start : ℚ) (dur : ℕ → ℚ)
    (seq : List ColorEvent) (r : DispatchRec)
    (hr : r ∈ led_controller_thread start dur seq) :
    (r.target ≤ r.current → r.wait = 0 ∧ r.dispatchTime = r.current) ∧
    (r.current < r.target → r.wait = r.target - r.current) ∧
    r.cmds = control_rgb_leds r.event.rgb r.event.brightness := by
  obtain ⟨ht, hw, hd, hc⟩ :=
    runWith_mem_fields start dur allOk seq 0 start r hr
  refine ⟨?_, ?_, hc⟩
  · intro hle
    have hnl : ¬ r.current < r.target := not_lt.mpr hle
    refine ⟨by rw [hw, if_neg hnl], ?_⟩
    rw [hd, hw, if_neg hnl, add_zero]
  · intro hlt
    rw [hw, if_pos hlt]

/-- The second record of the unsorted run: its target (0 s) is already in the
past when the loop reaches it at 0.5 s. -/
def pastDueRec : DispatchRec :=
  (led_controller_thread 0 zeroDur unsortedSeq).get ⟨1, by decide⟩

/-- Witness for C3 at the past-due event of the unsorted run. -/
theorem C3_witness :
    pastDueRec.wait = 0 ∧ pastDueRec.dispatchTime = pastDueRec.current :=
  (C3_no_suspension_when_late 0 zeroDur unsortedSeq pastDueRec
      (List.get_mem _ _ _)).1
    (by norm_num [pastDueRec, led_controller_thread, runWith, allOk, zeroDur,
      unsortedSeq, evA, evB])

/- ### C4 — exactly one dispatch per entry -/

/-- **C4.** Under a failure-free sink the scheduler dispatches exactly once
per timeline entry, in input order: the trace's event list *is* the input
list (so nothing is skipped, duplicated, batched or reordered), and each
record carries the commands of exactly one event. -/
theorem C4_exactly_once_per_entry (start : ℚ) (dur : ℕ → ℚ)
    (seq : List ColorEvent) :
    (led_controller_thread start dur seq).map (fun r => r.event) = seq ∧
    (led_controller_thread start dur seq).length = seq.length := by
  have h : (led_controller_thread start dur seq).map (fun r => r.event)
      = seq := runWith_allOk_events start dur seq 0 start
  exact ⟨h, by simpa using congrArg List.length h⟩

/- ### C8 — the epoch is captured once -/

/-- The target times of a failure-free run are fully determined by the
single captured epoch and the offsets. -/
theorem runWith_allOk_targets (start : ℚ) (dur : ℕ → ℚ) :
    ∀ (seq : List ColorEvent) (k : ℕ) (clock : ℚ),
      (runWith start dur allOk k clock seq).map (fun r => r.target)
        = seq.map fun e => start + (e.timestamp : ℚ) / 1000 := by
  intro seq
  induction seq with
  | nil => intro k clock; rfl
  | cons e rest ih =>
      intro k clock
      simp only [runWith, allOk, List.map_cons, ih]

/-- **C8.** Every event's target time equals the single epoch captured
before the loop plus its own offset, and the target times are independent of
the wall-clock readings taken during the run (two runs with different
dispatch-duration behaviour produce identical target times): the epoch is
never re-derived mid-run. -/
theorem C8_epoch_captured_once (start : ℚ) (dur durA : ℕ → ℚ)
    (seq : List ColorEvent) :
    (led_controller_thread start dur seq).map (fun r => r.target)
      = (seq.map fun e => start + (e.timestamp : ℚ) / 1000) ∧
    (led_controller_thread start dur seq).map (fun r => r.target)
      = (led_controller_thread start durA seq).map (fun r => r.target) := by
  have h1 : (led_controller_thread start dur seq).map (fun r => r.target)
      = (seq.map fun e => start + (e.timestamp : ℚ) / 1000) :=
    runWith_allOk_targets start dur seq 0 start
  have h2 : (led_controller_thread start durA seq).map (fun r => r.target)
      = (seq.map fun e => start + (e.timestamp : ℚ) / 1000) :=
    runWith_allOk_targets start durA seq 0 start
  exact ⟨h1, by rw [h1, h2]⟩

/- ### C5 — sink failures -/

/-- A sink whose call for event 0 raises a transient error; all later calls
would succeed. -/
def transientAt0 : ℕ → SinkOutcome :=
  fun k => if k = 0 then .transientErr else .ok

/-- **C5 counterexample.** The loop body has no `try`/`except`: a transient
sink failure on event 0 of the sorted two-event timeline aborts the thread,
so event 1 (`evA`, at 500 ms) is never dispatched — refuting the claim that
after a transient failure on event `k` the scheduler still dispatches event
`k+1`. -/
theorem C5_counterexample :
    (runWith 0 zeroDur transientAt0 0 0 sortedSeq).map (fun r => r.event)
        = [evB] ∧
    evA ∈ sortedSeq ∧
    evA ∉ (runWith 0 zeroDur transientAt0 0 0 sortedSeq).map
        (fun r => r.event) := by
  refine ⟨?_, by decide, ?_⟩
  · norm_num [runWith, transientAt0, zeroDur, sortedSeq, evA, evB]
  · norm_num [runWith, transientAt0, zeroDur, sortedSeq, evA, evB, redRGB]

/-- If the first non-`ok` sink outcome is at absolute index `i + k`, the loop
started at index `i` processes exactly the first `k + 1` remaining events and
aborts. -/
theorem runWith_first_failure (start : ℚ) (dur : ℕ → ℚ)
    (outcome : ℕ → SinkOutcome) :
    ∀ (seq : List ColorEvent) (k i : ℕ) (clock : ℚ),
      (∀ j, j < k → outcome (i + j) = .ok) →
      outcome (i + k) ≠ .ok →
      k < seq.length →
      (runWith start dur outcome i clock seq).map (fun r => r.event)
        = seq.take (k + 1) := by
  intro seq
  induction seq with
  | nil =>
      intro k i clock _ _ h3
      simp at h3
  | cons e rest ih =>
      intro k i clock h1 h2 h3
      cases k with
      | zero =>
          have hne : outcome i ≠ .ok := by simpa using h2
          rw [runWith]
          rcases ho : outcome i with _ | _ | _
          · exact absurd ho hne
          · simp
          · simp
      | succ kp =>
          have hok : outcome i = .ok := by simpa using h1 0 (Nat.succ_pos kp)
          rw [runWith, hok]
          simp only [List.map_cons, List.take_succ_cons, List.cons.injEq,
            true_and]
          refine ih kp (i + 1) _ ?_ ?_ ?_
          · intro j hj
            have := h1 (j + 1) (Nat.succ_lt_succ hj)
            have harith : i + (j + 1) = i + 1 + j := by omega
            rwa [harith] at this
          · have harith : i + (kp + 1) = i + 1 + kp := by omega
            rwa [harith] at h2
          · simpa using h3

/-- **C5 amended.** The loop has no per-event failure isolation: *any* sink
failure on event `k` — transient or fatal alike — stops the thread, so
events `0..k` are the only ones processed and no event after `k` is ever
dispatched; the uncaught exception terminates the thread (reported upward by
the runtime). -/
theorem C5_any_failure_stops (start : ℚ) (dur : ℕ → ℚ)
    (outcome : ℕ → SinkOutcome) (seq : List ColorEvent) (k : ℕ)
    (hok : ∀ j, j < k → outcome j = .ok)
    (hfail : outcome k ≠ .ok) (hk : k < seq.length) :
    (runWith start dur outcome 0 start seq).map (fun r => r.event)
      = seq.take (k + 1) := by
  refine runWith_first_failure start dur outcome seq k 0 start ?_ ?_ hk
  · intro j hj
    simpa using hok j hj
  · simpa using hfail

/-- Witness for C5 (amended): transient failure at event 0 of the sorted
two-event run leaves only that event in the trace. -/
theorem C5_any_failure_stops_witness :
    (runWith 0 zeroDur transientAt0 0 0 sortedSeq).map (fun r => r.event)
      = sortedSeq.take 1 :=
  C5_any_failure_stops 0 zeroDur transientAt0 sortedSeq 0
    (fun j hj => absurd hj (Nat.not_lt_zero j)) (by decide) (by decide)

/- ### C9 — mission upload -/

/-- A waypoint as read from `mission['waypoints']`. -/
structure Waypoint where
  latitude : ℚ
  longitude : ℚ
  altitude : ℚ
deriving DecidableEq, Repr

/-- `mavutil.mavlink.MAV_FRAME_GLOBAL_RELATIVE_ALT`. -/
def MAV_FRAME_GLOBAL_RELATIVE_ALT : ℕ := 3

/-- `mavutil.mavlink.MAV_CMD_NAV_WAYPOINT`. -/
def MAV_CMD_NAV_WAYPOINT : ℕ := 16

/-- A MAVLink mission-protocol message sent by `upload_mission`. -/
inductive MissionMsg
  | clearAll
  | item (seqNum : ℕ) (frame : ℕ) (command : ℕ)
      (current : ℕ) (autocontinue : ℕ)
      (p1 p2 p3 p4 : ℚ) (wp : Waypoint)
deriving DecidableEq, Repr

/-- `upload_mission(waypoints)`: `mission_clear_all_send` followed by one
`mission_item_send` per waypoint, in enumeration order, with the enumeration
index as the sequence number. -/
def upload_mission (waypoints : List Waypoint) : List MissionMsg :=
  .clearAll ::
    (waypoints.enum.map fun p =>
      .item p.1 MAV_FRAME_GLOBAL_RELATIVE_ALT MAV_CMD_NAV_WAYPOINT
        0 1 0 0 0 0 p.2)

/-- **C9.** Mission upload first clears the existing mission, then sends
exactly one mission item per waypoint in input order; the `k`-th item (at
position `k+1` of the message stream) carries sequence number `k` and the
`k`-th waypoint. -/
theorem C9_upload_clear_then_items (waypoints : List Waypoint)
    (k : ℕ) (wp : Waypoint) (hk : waypoints[k]? = some wp) :
    (upload_mission waypoints)[0]? = some .clearAll ∧
    (upload_mission waypoints).length = waypoints.length + 1 ∧
    (upload_mission waypoints)[k + 1]?
      = some (.item k MAV_FRAME_GLOBAL_RELATIVE_ALT MAV_CMD_NAV_WAYPOINT
          0 1 0 0 0 0 wp) := by
  refine ⟨by simp [upload_mission], by simp [upload_mission], ?_⟩
  simp [upload_mission, List.getElem?_cons_succ, List.getElem?_map,
    List.getElem?_enum, hk]

/-- Witness for C9 on a concrete two-waypoint list. -/
theorem C9_witness :
    (upload_mission [⟨1, 2, 10⟩, ⟨3, 4, 20⟩])[0]? = some .clearAll ∧
    (upload_mission [⟨1, 2, 10⟩, ⟨3, 4, 20⟩]).length = 3 ∧
    (upload_mission [⟨1, 2, 10⟩, ⟨3, 4, 20⟩])[2]?
      = some (.item 1 MAV_FRAME_GLOBAL_RELATIVE_ALT MAV_CMD_NAV_WAYPOINT
          0 1 0 0 0 0 ⟨3, 4, 20⟩) :=
  C9_upload_clear_then_items [⟨1, 2, 10⟩, ⟨3, 4, 20⟩] 1 ⟨3, 4, 20⟩ rfl

/- ### C7 — the interpolation variant (spec-modelled) -/

/-- Modelled from the spec: a `colorInterpolation` program — a continuous
color function of show time together with the show duration.  The source
references a method `led_interpolation_thread` that consumes it, but that
method is not defined anywhere in `src/`; only its caller `execute_show`
exists. -/
structure InterpProgram where
  duration_ms : ℕ
  colorAt : ℕ → RGB × ℚ

/-- Modelled from the spec: the fixed tick cadence of the interpolation
scheduler ("default ~20–50 ms"). -/
def tickIntervalMs : ℕ := 50

/-- Modelled from the spec: the number of ticks needed to cover the show
duration at the fixed cadence. -/
def numTicks (duration_ms : ℕ) : ℕ :=
  (duration_ms + tickIntervalMs - 1) / tickIntervalMs

/-- Modelled from the spec: `led_interpolation_thread` samples the
interpolation function at the fixed tick cadence and dispatches one command
per tick until the show duration elapses.  Each trace entry is the tick's
show time (ms) and the servo commands sent for the sampled color. -/
def led_interpolation_thread (p : InterpProgram) :
    List (ℕ × List ServoCmd) :=
  (List.range (numTicks p.duration_ms)).map fun k =>
    (k * tickIntervalMs,
      control_rgb_leds (p.colorAt (k * tickIntervalMs)).1
        (p.colorAt (k * tickIntervalMs)).2)

/- ### `execute_show` -/

/-- The parsed `mission.json` as `execute_show` reads it: `name`,
`waypoints`, `lightingSequence`, and optionally `colorInterpolation`. -/
structure Mission where
  name : String
  waypoints : List Waypoint
  lightingSequence : List ColorEvent
  colorInterpolation : Option InterpProgram

/-- The trace of whichever LED thread `execute_show` starts. -/
inductive LedTrace
  | discrete (trace : List DispatchRec)
  | interp (trace : List (ℕ × List ServoCmd))

/-- The discrete-thread trace carried by a `LedTrace` (empty for the
interpolation variant). -/
def LedTrace.discreteTrace : LedTrace → List DispatchRec
  | .discrete t => t
  | .interp _ => []

/-- The observable effect of one `execute_show` call: the mission-upload
messages, the LED thread's trace, and whether `MAV_CMD_MISSION_START` was
sent. -/
structure ShowResult where
  uploadMsgs : List MissionMsg
  led : LedTrace
  missionStartSent : Bool

/-- `execute_show(mission_file, use_interpolation)`: upload the waypoints,
start the LED thread (interpolation variant iff `use_interpolation` and the
mission has a `colorInterpolation` key), then send `MAV_CMD_MISSION_START`.
There is no validation step of any kind. -/
def execute_show (mission : Mission) (use_interpolation : Bool)
    (start : ℚ) (dur : ℕ → ℚ) : ShowResult :=
  { uploadMsgs := upload_mission mission.waypoints
    led :=
      match use_interpolation, mission.colorInterpolation with
      | true, some p => .interp (led_interpolation_thread p)
      | _, _ =>
        .discrete (led_controller_thread start dur mission.lightingSequence)
    missionStartSent := true }

/- ### C6 — no validation of the show descriptor -/

/-- An event whose brightness 2 is outside the declared range `[0,1]`. -/
def overBrightEvent : ColorEvent := ⟨0, redRGB, 2⟩

/-- A malformed mission: empty waypoint list and an out-of-range
brightness. -/
def badMission : Mission :=
  { name := "bad"
    waypoints := []
    lightingSequence := [overBrightEvent]
    colorInterpolation := none }

/-- **C6 counterexample.** `execute_show` contains no validation: for a
mission with an empty waypoint list and brightness 2 (outside `[0,1]`), no
error is raised, the mission-start command is still sent (the show starts),
the out-of-range event is dispatched, and the unclamped control value
`int(255·2)·4 + 1000 = 3040` exceeds the hardware range bound 2020 —
refuting the claim that such descriptors are rejected before any dispatch
and that the show never starts. -/
theorem C6_counterexample :
    (1 : ℚ) < overBrightEvent.brightness ∧
    badMission.waypoints = [] ∧
    (execute_show badMission true 0 zeroDur).missionStartSent = true ∧
    ((execute_show badMission true 0 zeroDur).led.discreteTrace).map
        (fun r => r.event) = [overBrightEvent] ∧
    controlValue 255 overBrightEvent.brightness = 3040 ∧
    ¬ controlValue 255 overBrightEvent.brightness ≤ 2020 := by
  have hcv : controlValue 255 overBrightEvent.brightness = 3040 := by
    have h2 : pyInt ((255 : ℕ) * (2 : ℚ)) = 510 := by
      norm_num [pyInt]
    simp only [controlValue, pwmOf, overBrightEvent]
    rw [h2]
    norm_num
  refine ⟨by norm_num [overBrightEvent], rfl, rfl, ?_, hcv, by rw [hcv]; norm_num⟩
  simp [execute_show, badMission, LedTrace.discreteTrace,
    led_controller_thread, runWith, allOk]

/-- **C6 amended.** `execute_show` performs no validation at all: for
*every* show descriptor — malformed or not — no error is surfaced, the
mission upload and the mission-start command are issued, and the LED thread
is started on the raw lighting sequence.  Out-of-range values are indeed not
clamped, but only because they flow through the unclamped affine mapping and
are dispatched as-is (e.g. brightness 2 on a 255 channel yields control
value 3040 > 2020). -/
theorem C6_no_validation (mission : Mission) (start : ℚ) (dur : ℕ → ℚ) :
    (execute_show mission false start dur).missionStartSent = true ∧
    (execute_show mission false start dur).uploadMsgs
      = upload_mission mission.waypoints ∧
    (execute_show mission false start dur).led
      = .discrete (led_controller_thread start dur mission.lightingSequence) ∧
    controlValue 255 (2 : ℚ) = 3040 := by
  refine ⟨rfl, rfl, ?_, ?_⟩
  · simp [execute_show]
  · have h2 : pyInt ((255 : ℕ) * (2 : ℚ)) = 510 := by
      norm_num [pyInt]
    simp only [controlValue, pwmOf]
    rw [h2]
    norm_num

/-- **C7.** (Against the spec-modelled interpolation thread.)  When the
mission carries a `colorInterpolation` program and interpolation is selected,
`execute_show` starts the interpolation variant; that variant samples the
program at the fixed tick cadence — the `k`-th dispatch is at show time
`k·tickIntervalMs` with the commands for the sampled color — every tick lies
before the show duration, and the ticks cover the whole duration. -/
theorem C7_interpolation_sampling (m : Mission) (p : InterpProgram)
    (start : ℚ) (dur : ℕ → ℚ) (k : ℕ)
    (hp : m.colorInterpolation = some p)
    (hk : k < numTicks p.duration_ms) :
    (execute_show m true start dur).led
        = .interp (led_interpolation_thread p) ∧
    (led_interpolation_thread p).length = numTicks p.duration_ms ∧
    (led_interpolation_thread p)[k]?
      = some (k * tickIntervalMs,
          control_rgb_leds (p.colorAt (k * tickIntervalMs)).1
            (p.colorAt (k * tickIntervalMs)).2) ∧
    k * tickIntervalMs < p.duration_ms ∧
    p.duration_ms ≤ numTicks p.duration_ms * tickIntervalMs := by
  refine ⟨?_, ?_, ?_, ?_, ?_⟩
  · simp [execute_show, hp]
  · simp [led_interpolation_thread]
  · simp [led_interpolation_thread, List.getElem?_map, List.getElem?_range,
      hk]
  · have hkd := hk
    simp only [numTicks, tickIntervalMs] at hkd ⊢
    omega
  · simp only [numTicks, tickIntervalMs]
    omega

/-- A concrete interpolation program: 120 ms of constant red. -/
def constInterp : InterpProgram := ⟨120, fun _ => (redRGB, 1)⟩

/-- A mission carrying only an interpolation program. -/
def interpMission : Mission := ⟨"interp", [], [], some constInterp⟩

/-- Witness for C7 at tick `k = 1` of the 120 ms program. -/
theorem C7_witness :
    (execute_show interpMission true 0 zeroDur).led
        = .interp (led_interpolation_thread constInterp) ∧
    (led_interpolation_thread constInterp).length
        = numTicks constInterp.duration_ms ∧
    (led_interpolation_thread constInterp)[1]?
      = some (1 * tickIntervalMs,
          control_rgb_leds (constInterp.colorAt (1 * tickIntervalMs)).1
            (constInterp.colorAt (1 * tickIntervalMs)).2) ∧
    1 * tickIntervalMs < constInterp.duration_ms ∧
    constInterp.duration_ms
        ≤ numTicks constInterp.duration_ms * tickIntervalMs :=
  C7_interpolation_sampling interpMission constInterp 0 zeroDur 1 rfl
    (by decide)

/- ### C10 — three fixed channels per dispatch -/

/-- **C10.** Every dispatched event sends exactly these three commands, in
this order: red on servo 9, green on servo 10, blue on servo 11 — no other
channel is ever actuated, and the channel assignment is the same for every
record of every run. -/
theorem C10_three_fixed_channels (start : ℚ) (dur : ℕ → ℚ)
    (seq : List ColorEvent) (r : DispatchRec)
    (hr : r ∈ led_controller_thread start dur seq) :
    r.cmds = [⟨9, controlValue r.event.rgb.r r.event.brightness⟩,
      ⟨10, controlValue r.event.rgb.g r.event.brightness⟩,
      ⟨11, controlValue r.event.rgb.b r.event.brightness⟩] ∧
    r.cmds.map (fun c => c.channel) = [9, 10, 11] ∧
    r.cmds.length = 3 := by
  obtain ⟨-, -, -, hc⟩ :=
    runWith_mem_fields start dur allOk seq 0 start r hr
  rw [hc]
  exact ⟨rfl, rfl, rfl⟩

/-- The first record of the sorted two-event run. -/
def firstRec : DispatchRec :=
  (led_controller_thread 0 zeroDur sortedSeq).get ⟨0, by decide⟩

/-- Witness for C10 at the first dispatch of the sorted run. -/
theorem C10_witness :
    firstRec.cmds.map (fun c => c.channel) = [9, 10, 11] ∧
    firstRec.cmds.length = 3 :=
  ⟨(C10_three_fixed_channels 0 zeroDur sortedSeq firstRec
      (List.get_mem _ _ _)).2.1,
   (C10_three_fixed_channels 0 zeroDur sortedSeq firstRec
      (List.get_mem _ _ _)).2.2⟩
